import Mathlib

/-!
# Verification of the ew6 pattern-search and evaluation pipeline

Shallow embedding of the core of the `elliottwave` (ew6) repository:
the beam-search candidate budget (`ew/core/pruner.py`), the layer
construction of the analyzer (`ew/detectors/analyzer.py`), the impulse
rule validator (`ew/core/rules_p5.py`), the Fibonacci scorer
(`ew/core/scorer.py`), span-overlap non-maximum suppression
(`ew/core/pruner.py`), the pattern backtest (`backtest/simple.py`) and
the stability-mode walk-forward evaluator (`run/walkforward.py`).

Python floats are embedded as `Rat` wherever the code only adds,
multiplies, divides and compares (all values the claims touch are
exact in those operations); transcendental parts (`math.exp`,
`math.sqrt`) are embedded over `Real`.  Python's stable
`list.sort(..., reverse=True)` is embedded as an insertion sort with a
total descending relation, which produces the same list as any stable
sort.
-/

namespace EW6

/-! ## Data model (`ew/core/model.py`, `ew/core/monowave.py`) -/

/-- `WaveLeg` (model.py lines 13–31): a single leg between two indexed
price points. -/
structure WaveLeg where
  start_idx : Int
  end_idx : Int
  start_px : Rat
  end_px : Rat
deriving DecidableEq, Repr, Inhabited

/-- `WaveLeg.direction` property (model.py lines 21–27): sign of the
price move. -/
def WaveLeg.direction (l : WaveLeg) : Int :=
  if l.start_px < l.end_px then 1
  else if l.end_px < l.start_px then -1
  else 0

/-- `WaveLeg.abs_move` property (model.py lines 29–31). -/
def WaveLeg.abs_move (l : WaveLeg) : Rat :=
  |l.end_px - l.start_px|

/-- `MonoWave` (monowave.py lines 28–45) has exactly the same fields and
derived properties as `WaveLeg`; the analyzer converts one to the other
field-by-field (`_mw_to_leg`), so we reuse a single structure. -/
abbrev MonoWave := WaveLeg

/-- The `meta` dict attached to a `WavePattern`.  The code reads it only
through `meta.get(key, default)` with defaults `0.0` / `False`, so the
dict collapses to a record whose fields default to those values (an
absent key is the default value). -/
structure Meta where
  score : Rat := 0
  confidence : Rat := 0
  w4_overlap : Bool := false
deriving DecidableEq, Repr

/-- `WavePattern` (model.py lines 34–55). -/
structure WavePattern where
  kind : String
  legs : List WaveLeg
  meta : Meta := {}
deriving DecidableEq, Repr

/-- `WavePattern.start_idx` property (model.py lines 41–43). -/
def WavePattern.start_idx (p : WavePattern) : Int :=
  match p.legs.head? with
  | some l => l.start_idx
  | none => 0

/-- `WavePattern.end_idx` property (model.py lines 45–47). -/
def WavePattern.end_idx (p : WavePattern) : Int :=
  match p.legs.getLast? with
  | some l => l.end_idx
  | none => 0

/-! ## Beam search (`ew/core/pruner.py` lines 19–71)

`beam_search` is generic in the layer item type and the scoring
function.  The Python `generated` counter is returned as the second
component of the result; it increments in lockstep with the calls to
`score_fn`, so it equals the number of partial-prefix scoring
evaluations performed. -/

/-- `BeamConfig` (pruner.py lines 19–23).  The fields are the Python
ints of the dataclass; all uses in the pipeline are non-negative, so we
embed them as `Nat`. -/
structure BeamConfig where
  beam_width : Nat := 256
  max_candidates : Nat := 5000
  max_patterns : Nat := 50
deriving DecidableEq, Repr

/-- Stable descending sort by score (pruner.py line 56:
`next_beam.sort(key=lambda x: x[1], reverse=True)`).  Python's sort is
stable; insertion sort with the total relation `b.2 ≤ a.2` is stable
with the same key order, hence produces the identical list. -/
def sortByScoreDesc {α : Type} (l : List (α × Rat)) : List (α × Rat) :=
  List.insertionSort (fun a b => b.2 ≤ a.2) l

/-- Inner loop of `beam_search` (pruner.py lines 46–52): expand one
beam prefix by every item of the current layer, appending each scored
candidate and incrementing `generated`, breaking as soon as
`generated >= max_candidates` (checked after the increment). -/
def expandPrefix {α : Type} (score_fn : List α → Rat) (maxCand : Nat)
    (pfx : List α) : List α → List (List α × Rat) → Nat →
    List (List α × Rat) × Nat
  | [], acc, gen => (acc, gen)
  | item :: rest, acc, gen =>
    let cand := pfx ++ [item]
    let acc' := acc ++ [(cand, score_fn cand)]
    let gen' := gen + 1
    if maxCand ≤ gen' then (acc', gen')
    else expandPrefix score_fn maxCand pfx rest acc' gen'

/-- Middle loop of `beam_search` (pruner.py lines 45–54): expand every
prefix of the current beam, breaking when `generated >= max_candidates`
(checked after each prefix's expansion). -/
def expandLayer {α : Type} (score_fn : List α → Rat) (maxCand : Nat)
    (layer : List α) : List (List α × Rat) → List (List α × Rat) → Nat →
    List (List α × Rat) × Nat
  | [], acc, gen => (acc, gen)
  | (pfx, _) :: rest, acc, gen =>
    let r := expandPrefix score_fn maxCand pfx layer acc gen
    if maxCand ≤ r.2 then r
    else expandLayer score_fn maxCand layer rest r.1 r.2

/-- Outer loop of `beam_search` (pruner.py lines 39–63): per layer,
build `next_beam`, sort it descending by score, truncate to
`max(1, beam_width)`, and stop once the candidate budget is reached. -/
def beamLoop {α : Type} (score_fn : List α → Rat) (cfg : BeamConfig) :
    List (List α) → List (List α × Rat) → Nat →
    List (List α × Rat) × Nat
  | [], beam, gen => (beam, gen)
  | layer :: rest, beam, gen =>
    let r := expandLayer score_fn cfg.max_candidates layer beam [] gen
    let beam' := (sortByScoreDesc r.1).take (max 1 cfg.beam_width)
    if cfg.max_candidates ≤ r.2 then (beam', r.2)
    else beamLoop score_fn cfg rest beam' r.2

/-- `beam_search` (pruner.py lines 26–71).  Returns the final kept
tuples together with the `generated` counter (= number of `score_fn`
evaluations performed). -/
def beam_search {α : Type} (layers : List (List α))
    (score_fn : List α → Rat) (cfg : BeamConfig) :
    List (List α × Rat) × Nat :=
  let r := beamLoop score_fn cfg layers [([], 0)] 0
  ((sortByScoreDesc r.1).take cfg.max_patterns, r.2)

/-! ## Analyzer layers (`ew/detectors/analyzer.py` lines 60–65) -/

/-- `_layers` (analyzer.py lines 60–65): layer 0 is
`range(0, max(0, n - 4))`; each of the four following layers is
`range(1, max_gap + 2)`.  (`n - 4` on `Nat` is Python's
`max(0, n - 4)`.) -/
def _layers (n max_gap : Nat) : List (List Nat) :=
  List.range (n - 4) :: List.replicate 4 (List.range' 1 (max_gap + 1))

/-! ## Rule validator (`ew/core/rules_p5.py` lines 38–84)

The pipeline passes `MonoWave` objects, so `_dir` resolves to the
`direction` property and `_abs_move` to the `abs_move` property (both
derived from the prices).  The Python function returns
`(bool, meta_dict)` when `return_meta=True`; the meta dict is `{}` on
every rejection path and `{"w4_overlap": flag}` on acceptance, embedded
as `Bool × Option Bool`. -/

/-- `is_valid_impulse_from_monowaves` (rules_p5.py lines 38–84) with
`return_meta=True`. -/
def is_valid_impulse_from_monowaves (mws : List MonoWave) :
    Bool × Option Bool :=
  match mws with
  | [m0, m1, m2, m3, m4] =>
    let d := [m0.direction, m1.direction, m2.direction, m3.direction, m4.direction]
    if 0 ∈ d then (false, none)
    else
      let s := m0.direction
      if d ≠ [s, -s, s, -s, s] then (false, none)
      else
        let p0 := m0.start_px
        let p1 := m0.end_px
        let p2 := m1.end_px
        let p4 := m3.end_px
        -- wave2 retrace beyond start invalid
        if s = 1 ∧ p2 ≤ p0 then (false, none)
        else if s ≠ 1 ∧ p0 ≤ p2 then (false, none)
        else
          -- wave3 not shortest
          let w1 := m0.abs_move
          let w3 := m2.abs_move
          let w5 := m4.abs_move
          if w3 ≤ min w1 w5 then (false, none)
          else
            -- wave4 overlap heuristic: flag only, never a rejection
            let ov := if s = 1 then decide (p4 < p1) else decide (p1 < p4)
            (true, some ov)
  | _ => (false, none)

/-! ## Scorer (`ew/core/scorer.py`)

`_within` returns `math.exp(...)` off-range, so the scorer lives in
`Real`; every claim-relevant input stays on the in-range branch where
the value is the rational `1`. -/

/-- `ScoreConfig` (scorer.py lines 18–24). -/
structure ScoreConfig where
  fib_w2_lo : Rat := 236 / 1000
  fib_w2_hi : Rat := 786 / 1000
  fib_w3_lo : Rat := 1
  fib_w3_hi : Rat := 2618 / 1000
  fib_w4_lo : Rat := 236 / 1000
  fib_w4_hi : Rat := 786 / 1000
  overlap_penalty : Rat := 5 / 2
  extreme_penalty : Rat := 1

/-- `_within` (scorer.py lines 27–32). -/
noncomputable def _within (x lo hi : Rat) : Real :=
  if lo ≤ x ∧ x ≤ hi then 1
  else if x < lo then
    (if 0 < lo then Real.exp (-(((lo : Real) - x) / lo) * 2) else 0)
  else
    (if 0 < hi then Real.exp (-(((x : Real) - hi) / hi) * 2) else 0)

/-- `score_impulse` (scorer.py lines 35–67). -/
noncomputable def score_impulse (pattern : WavePattern)
    (cfg : ScoreConfig := {}) : Real :=
  match pattern.legs with
  | [l1, l2, l3, l4, l5] =>
    let w1 := l1.abs_move
    let w2 := l2.abs_move
    let w3 := l3.abs_move
    let w4 := l4.abs_move
    let w5 := l5.abs_move
    let mn := min w1 (min w2 (min w3 (min w4 w5)))
    let mx := max w1 (max w2 (max w3 (max w4 w5)))
    if mn ≤ 0 then 0
    else
      let r2 := w2 / w1
      let r3 := w3 / w1
      let r4 := if 0 < w3 then w4 / w3 else 0
      let s : Real :=
        2 * _within r2 cfg.fib_w2_lo cfg.fib_w2_hi
        + 2 * _within r3 cfg.fib_w3_lo cfg.fib_w3_hi
        + (3 / 2) * _within r4 cfg.fib_w4_lo cfg.fib_w4_hi
      let s := if min w1 w5 < w3 then s + 1 else s
      let s := if pattern.meta.w4_overlap then s - (cfg.overlap_penalty : Real) else s
      let s := if 0 < mn ∧ 10 < mx / mn then s - (cfg.extreme_penalty : Real) else s
      let span : Rat := (pattern.end_idx - pattern.start_idx : Int)
      s + (min (max ((span : Real) / 500) 0) (1 / 2))
  | _ => 0

/-- The logistic function `1 / (1 + exp(-x))`. -/
noncomputable def logistic (x : Real) : Real :=
  1 / (1 + Real.exp (-x))

/-- `confidence_from_score` (scorer.py lines 70–71). -/
noncomputable def confidence_from_score (score : Real) : Real :=
  1 / (1 + Real.exp (-(score - 5 / 2)))

/-! ## Non-maximum suppression (`ew/core/pruner.py` lines 74–114) -/

/-- `overlap_ratio` (pruner.py lines 74–82) on index spans `[start, end)`. -/
def overlap_ratio (a_span b_span : Int × Int) : Rat :=
  let inter : Int := max 0 (min a_span.2 b_span.2 - max a_span.1 b_span.1)
  let union : Int := max a_span.2 b_span.2 - min a_span.1 b_span.1
  if union ≤ 0 then 0 else (inter : Rat) / (union : Rat)

/-- Greedy acceptance loop of `nms_by_span` (pruner.py lines 99–109):
accept an item only if its span overlaps every already-kept span
strictly below the threshold; append, then break once the keep limit is
reached. -/
def nmsLoop {α : Type} (span_fn : α → Int × Int) (overlap_thresh : Rat)
    (max_keep : Nat) : List α → List α → List α
  | [], kept => kept
  | it :: rest, kept =>
    let sp := span_fn it
    let ok := kept.all (fun kt => overlap_ratio sp (span_fn kt) < overlap_thresh)
    if ok then
      let kept' := kept ++ [it]
      if max_keep ≤ kept'.length then kept'
      else nmsLoop span_fn overlap_thresh max_keep rest kept'
    else nmsLoop span_fn overlap_thresh max_keep rest kept

/-- `nms_by_span` (pruner.py lines 85–114): stable descending sort by
score, then the greedy loop. -/
def nms_by_span {α : Type} (items : List α) (span_fn : α → Int × Int)
    (score_fn : α → Rat) (overlap_thresh : Rat := 7 / 10)
    (max_keep : Nat := 50) : List α :=
  let ordered := List.insertionSort (fun a b => score_fn b ≤ score_fn a) items
  nmsLoop span_fn overlap_thresh max_keep ordered []

/-! ## Backtest (`backtest/simple.py`)

Bars enter the backtest only through `_close_at(bars, idx)`, which
reads `bars.df["close"].iloc[clamped idx]`; we embed the bar series as
its list of close prices.  `float("inf")` values (profit factor) are
embedded with an explicit infinity constructor. -/

/-- A Python float that may be `float("inf")`. -/
inductive PFloat where
  | val (q : Rat)
  | inf
deriving DecidableEq, Repr

/-- `Trade` (simple.py lines 26–36). -/
structure Trade where
  pattern_idx : Nat
  direction : Int
  entry_px : Rat
  exit_px : Rat
  ret : Rat
  pnl : Rat
  equity_after : Rat
  fees : Rat
  slippage : Rat
deriving DecidableEq, Repr, Inhabited

/-- `BacktestReport` (simple.py lines 39–52).  The `sharpe_like` field
involves `math.sqrt` and is kept outside the record (as
`sharpe_like_of` below) so that the report stays executable; no claim
refers to its value. -/
structure BacktestReport where
  initial_cash : Rat
  final_equity : Rat
  trades : Nat
  wins : Nat
  winrate : Rat
  avg_ret : Rat
  total_ret : Rat
  max_drawdown : Rat
  equity_curve : List Rat
  profit_factor : PFloat
  expectancy : Rat
deriving DecidableEq, Repr

/-- Loop of `_dd_from_curve` (simple.py lines 58–66): running peak and
max fractional decline. -/
def ddLoop : Rat → Rat → List Rat → Rat
  | _, mdd, [] => mdd
  | peak, mdd, x :: rest =>
    let peak' := if peak < x then x else peak
    let dd := if 0 < peak' then (peak' - x) / peak' else 0
    ddLoop peak' (if mdd < dd then dd else mdd) rest

/-- `_dd_from_curve` (simple.py lines 55–66). -/
def _dd_from_curve : List Rat → Rat
  | [] => 0
  | c :: rest => ddLoop c 0 (c :: rest)

/-- `_close_at` (simple.py lines 69–79): clamp the index into range and
read the close price; `None` when the lookup fails (empty series). -/
def _close_at (closes : List Rat) (idx : Int) : Option Rat :=
  if closes.length = 0 then none
  else
    let idx := if idx < 0 then 0 else idx
    let idx := if closes.length ≤ idx then (closes.length : Int) - 1 else idx
    some (closes.getD idx.toNat 0)

/-- Entry/exit price resolution (simple.py lines 116–126): in `"bar"`
mode with a bar series present, look up closes at the first leg's start
index and the last leg's end index, falling back to the leg boundary
prices when a lookup fails; otherwise use the leg boundary prices. -/
def resolvedPrices (entry_mode : String) (bars : Option (List Rat))
    (legs : List WaveLeg) : Rat × Rat :=
  match legs with
  | [] => (0, 0)
  | l0 :: rest =>
    let llast := (l0 :: rest).getLast (List.cons_ne_nil l0 rest)
    if entry_mode = "bar" then
      match bars with
      | some closes =>
        match _close_at closes l0.start_idx, _close_at closes llast.end_idx with
        | some e, some x => (e, x)
        | _, _ => (l0.start_px, llast.end_px)
      | none => (l0.start_px, llast.end_px)
    else (l0.start_px, llast.end_px)

/-- The skip test of the pattern loop (simple.py lines 105–129): a
pattern yields no trade exactly when its confidence is below the
minimum, it has fewer than 5 legs, or its resolved entry or exit price
is non-positive. -/
def btSkips (min_confidence : Rat) (bars : Option (List Rat))
    (entry_mode : String) (p : WavePattern) : Bool :=
  p.meta.confidence < min_confidence ∨ p.legs.length < 5 ∨
    (resolvedPrices entry_mode bars p.legs).1 ≤ 0 ∨
    (resolvedPrices entry_mode bars p.legs).2 ≤ 0

/-- Mutable state of the pattern loop (simple.py lines 92–99). -/
structure BTState where
  equity : Rat
  curve : List Rat
  trades : List Trade
  wins : Nat
  rets : List Rat
  gross_wins : Rat
  gross_losses : Rat
deriving DecidableEq, Repr

/-- The `Trade` built for a non-skipped pattern (simple.py lines
113–156): direction from the first leg's price move (with `>= 0`
counting as long), signed gross return from the resolved prices, the
round-trip cost fraction `2*(fee+slippage)`, and the stake sized off
the running equity. -/
def btTrade (risk_fraction : Rat) (bars : Option (List Rat))
    (entry_mode : String) (fb sb equity : Rat)
    (ip : Nat × WavePattern) : Trade :=
  let legs := ip.2.legs
  let l0 := legs.headI
  let direction : Int :=
    if 0 ≤ l0.end_px - l0.start_px then 1 else -1
  let entry := (resolvedPrices entry_mode bars legs).1
  let exitp := (resolvedPrices entry_mode bars legs).2
  let gross_ret := (exitp - entry) / entry
  let signed_gross := if direction = 1 then gross_ret else -gross_ret
  let cost_frac := 2 * (fb + sb)
  let signed_net := signed_gross - cost_frac
  let stake := equity * risk_fraction
  let pnl := stake * signed_net
  { pattern_idx := ip.1, direction := direction, entry_px := entry,
    exit_px := exitp, ret := signed_net, pnl := pnl,
    equity_after := equity + pnl, fees := stake * (2 * fb),
    slippage := stake * (2 * sb) }

/-- One iteration of the pattern loop (simple.py lines 104–166). -/
def btStep (risk_fraction min_confidence : Rat) (bars : Option (List Rat))
    (entry_mode : String) (fb sb : Rat) (st : BTState)
    (ip : Nat × WavePattern) : BTState :=
  if btSkips min_confidence bars entry_mode ip.2 then st
  else
    let t := btTrade risk_fraction bars entry_mode fb sb st.equity ip
    { equity := t.equity_after,
      curve := st.curve ++ [t.equity_after],
      trades := st.trades ++ [t],
      wins := if 0 < t.ret then st.wins + 1 else st.wins,
      rets := st.rets ++ [t.ret],
      gross_wins := if 0 < t.ret then st.gross_wins + t.ret else st.gross_wins,
      gross_losses := if 0 < t.ret then st.gross_losses else st.gross_losses + (-t.ret) }

/-- `backtest_patterns` (simple.py lines 82–198). -/
def backtest_patterns (patterns : List WavePattern)
    (initial_cash : Rat := 10000) (risk_fraction : Rat := 1)
    (min_confidence : Rat := 0) (bars : Option (List Rat) := none)
    (entry_mode : String := "pattern") (fee_bps : Rat := 0)
    (slippage_bps : Rat := 0) : List Trade × BacktestReport :=
  let fb := fee_bps / 10000
  let sb := slippage_bps / 10000
  let st0 : BTState :=
    { equity := initial_cash, curve := [initial_cash], trades := [],
      wins := 0, rets := [], gross_wins := 0, gross_losses := 0 }
  let st := patterns.enum.foldl
    (btStep risk_fraction min_confidence bars entry_mode fb sb) st0
  let total_ret :=
    if 0 < initial_cash then (st.equity - initial_cash) / initial_cash else 0
  let avg_ret := if st.rets.isEmpty then 0 else st.rets.sum / st.rets.length
  let winrate := if st.trades.isEmpty then 0 else (st.wins : Rat) / st.trades.length
  let mdd := _dd_from_curve st.curve
  let profit_factor :=
    if 1 / 10 ^ 12 < st.gross_losses then PFloat.val (st.gross_wins / st.gross_losses)
    else if 0 < st.gross_wins then PFloat.inf
    else PFloat.val 0
  (st.trades,
   { initial_cash := initial_cash, final_equity := st.equity,
     trades := st.trades.length, wins := st.wins, winrate := winrate,
     avg_ret := avg_ret, total_ret := total_ret, max_drawdown := mdd,
     equity_curve := st.curve, profit_factor := profit_factor,
     expectancy := avg_ret })

/-- `sharpe_like` computation (simple.py lines 176–182), kept outside
`BacktestReport` because `math.sqrt` has no executable exact embedding.
`.inf` embeds `float("inf")`. -/
noncomputable def sharpe_like_of (rets : List Rat) : Option Real :=
  if 2 ≤ rets.length then
    let mu : Real := (rets.sum : Rat) / rets.length
    let var : Real :=
      (rets.map (fun x => ((x : Real) - mu) ^ 2)).sum / ((rets.length : Real) - 1)
    let sd := if 0 < var then Real.sqrt var else 0
    if 1 / 10 ^ 12 < sd then some (mu / sd)
    else if 0 < mu then none
    else some 0
  else some 0

/-! ## Walk-forward evaluation (`run/walkforward.py`)

`_run_on_slice` (walkforward.py lines 52–71) builds the analyzer
configuration with `AnalyzerConfig(options=options)` (line 63).
`AnalyzerConfig` (analyzer.py lines 31–53) is a frozen dataclass whose
fields are `monowave_skip`, `min_leg_abs_move`, `max_gap`,
`beam_width`, `max_candidates`, `max_patterns`, `nms_overlap`; a
dataclass constructor called with a keyword that is not a field raises
`TypeError`.  Exceptions are embedded with `Except`. -/

/-- A raised Python exception. -/
inductive PyError where
  | typeError (msg : String)
deriving DecidableEq, Repr

/-- The field names of the `AnalyzerConfig` dataclass (analyzer.py
lines 31–41). -/
def analyzerConfigFieldNames : List String :=
  ["monowave_skip", "min_leg_abs_move", "max_gap", "beam_width",
   "max_candidates", "max_patterns", "nms_overlap"]

/-- `_run_on_slice` (walkforward.py lines 52–71), applied to the slice
`[i0, i1)` of the bar series.  Its first statement after the swing
extraction is the constructor call `AnalyzerConfig(options=options)`
(line 63); `options` is not a field of the dataclass, so the call
raises `TypeError` and nothing later in the body (the 3-way unpacking
of the analyzer result, the `backtest_patterns(patterns, bars_slice,
...)` call) ever executes; the second branch below is unreachable. -/
def _run_on_slice (i0 i1 : Nat) : Except PyError Rat :=
  if ["options"].all (· ∈ analyzerConfigFieldNames) then
    Except.error (PyError.typeError "unreachable")
  else
    Except.error
      (PyError.typeError "AnalyzerConfig.init got an unexpected keyword argument: options")

/-- `_score` (walkforward.py lines 74–84). -/
noncomputable def wfScore (pos_frac : Rat) (ret_mu : Rat) (ret_sd : Real) : Real :=
  let sd := max ret_sd (1 / 10 ^ 9)
  let sharpe := (ret_mu : Real) / sd
  let s1 := logistic (3 * ((pos_frac : Real) - 1 / 2))
  let s2 := logistic ((3 / 2) * sharpe)
  (55 / 100) * s1 + (45 / 100) * s2

/-- The `wf_*` output mapping of `walk_forward_metrics`.  The early
zero-fold returns of the Python function carry only the scalar keys;
here the remaining fields are filled with empty/zero defaults. -/
structure WFOut where
  wf_splits : Nat
  wf_pos_frac : Rat
  wf_ret_mu : Rat
  wf_ret_sd : Real
  wf_score : Real
  wf_fold_ret : List Rat := []
  wf_fold_start : List Nat := []
  wf_fold_end : List Nat := []
  wf_test_bars : Nat := 0
  wf_train_bars : Nat := 0
  wf_step_bars : Nat := 0

/-- The fold loop of the `stability` mode (walkforward.py lines
143–156): fold `k` covers `[k*seg, min(n, (k+1)*seg))`; folds shorter
than `min_bars_per_split` are skipped, every other fold runs
`_run_on_slice` on its slice; a raised exception aborts the whole
evaluation. -/
def stabilityFolds (n seg minBars : Nat)
    (runSlice : Nat → Nat → Except PyError Rat) :
    List Nat → Except PyError (List (Rat × Nat × Nat))
  | [] => Except.ok []
  | k :: rest =>
    let i0 := k * seg
    let i1 := min n ((k + 1) * seg)
    if i1 - i0 < minBars then stabilityFolds n seg minBars runSlice rest
    else
      match runSlice i0 i1 with
      | Except.error e => Except.error e
      | Except.ok r =>
        match stabilityFolds n seg minBars runSlice rest with
        | Except.error e => Except.error e
        | Except.ok tail => Except.ok ((r, i0, i1) :: tail)

/-- `walk_forward_metrics` (walkforward.py lines 87–201) restricted to
`mode="stability"` with default `train_bars`/`test_bars`/`step_bars`,
parametric in the per-slice runner (the code fixes it to
`_run_on_slice`).  `n` is the bar-series length. -/
noncomputable def walk_forward_metrics_stability
    (runSlice : Nat → Nat → Except PyError Rat) (n : Nat)
    (splits : Nat := 3) (min_bars_per_split : Nat := 200) :
    Except PyError WFOut :=
  if n = 0 then
    Except.ok { wf_splits := 0, wf_pos_frac := 0, wf_ret_mu := 0,
                wf_ret_sd := 0, wf_score := 0 }
  else
    let splits := max 2 (min 20 splits)
    let test_bars := max (n / splits) min_bars_per_split
    let step := max 1 test_bars
    let train_bars := max min_bars_per_split (2 * test_bars)
    let seg := max (n / splits) min_bars_per_split
    let splits_eff := max 2 (min 20 (n / seg))
    match stabilityFolds n seg min_bars_per_split runSlice (List.range splits_eff) with
    | Except.error e => Except.error e
    | Except.ok folds =>
      if folds.isEmpty then
        Except.ok { wf_splits := 0, wf_pos_frac := 0, wf_ret_mu := 0,
                    wf_ret_sd := 0, wf_score := 0 }
      else
        let rets := folds.map (·.1)
        let mu := rets.sum / rets.length
        let sd : Real :=
          Real.sqrt ((rets.map (fun x => ((x : Real) - (mu : Real)) ^ 2)).sum / rets.length)
        let pos : Rat := ((rets.filter (fun x => 0 < x)).length : Rat) / rets.length
        Except.ok
          { wf_splits := folds.length, wf_pos_frac := pos, wf_ret_mu := mu,
            wf_ret_sd := sd, wf_score := wfScore pos mu sd,
            wf_fold_ret := rets, wf_fold_start := folds.map (·.2.1),
            wf_fold_end := folds.map (·.2.2), wf_test_bars := test_bars,
            wf_train_bars := train_bars, wf_step_bars := step }

/-! ## Specification-side predicates and concrete fixtures -/

/-- The claim C4's acceptance predicate, written as the claim states
it: exactly 5 legs, every direction nonzero, direction sequence
`[s, -s, s, -s, s]` for `s` the first leg's direction, the second leg's
end price strictly beyond the first leg's start price (per direction),
and the third leg's magnitude strictly above the minimum of the first
and fifth legs' magnitudes. -/
def validImpulseSpec (mws : List MonoWave) : Prop :=
  mws.length = 5 ∧
  (∀ m ∈ mws, m.direction ≠ 0) ∧
  mws.map WaveLeg.direction =
    [(mws.getD 0 default).direction, -(mws.getD 0 default).direction,
     (mws.getD 0 default).direction, -(mws.getD 0 default).direction,
     (mws.getD 0 default).direction] ∧
  ((mws.getD 0 default).direction = 1 →
    (mws.getD 0 default).start_px < (mws.getD 1 default).end_px) ∧
  ((mws.getD 0 default).direction = -1 →
    (mws.getD 1 default).end_px < (mws.getD 0 default).start_px) ∧
  min (mws.getD 0 default).abs_move (mws.getD 4 default).abs_move <
    (mws.getD 2 default).abs_move

/-- Loop invariant of the backtest pattern loop: the equity curve is the
running-equity history (one entry per recorded trade, seeded with the
initial cash), the current equity is its last element, and the win/loss
accumulators are the filtered sums of the recorded net returns. -/
def BTInv (init risk : Rat) (st : BTState) : Prop :=
  st.curve.length = st.trades.length + 1 ∧
  st.curve.head? = some init ∧
  st.curve.getLast? = some st.equity ∧
  st.rets = st.trades.map Trade.ret ∧
  st.gross_wins = ((st.trades.map Trade.ret).filter (fun x => 0 < x)).sum ∧
  st.gross_losses = -(((st.trades.map Trade.ret).filter (fun x => x ≤ 0)).sum) ∧
  ∀ k, k < st.trades.length →
    st.curve.getD (k + 1) 0 = st.curve.getD k 0 + (st.trades.getD k default).pnl ∧
    (st.trades.getD k default).pnl =
      st.curve.getD k 0 * risk * (st.trades.getD k default).ret ∧
    (st.trades.getD k default).equity_after = st.curve.getD (k + 1) 0

/-- A pattern with six legs and positive prices; its confidence is the
default 0. -/
def sixLegPattern : WavePattern :=
  { kind := "impulse_1_5",
    legs := [⟨0, 1, 1, 2⟩, ⟨1, 2, 2, 1⟩, ⟨2, 3, 1, 3⟩, ⟨3, 4, 3, 2⟩,
             ⟨4, 5, 2, 4⟩, ⟨5, 6, 4, 5⟩],
    meta := {} }

/-- A 5-leg pattern whose trade nets `+0.10` (entry 10, exit 11, no
costs). -/
def winPattern : WavePattern :=
  { kind := "impulse_1_5",
    legs := [⟨0, 1, 10, 10⟩, ⟨1, 2, 10, 10⟩, ⟨2, 3, 10, 10⟩, ⟨3, 4, 10, 10⟩,
             ⟨4, 5, 10, 11⟩],
    meta := {} }

/-- A 5-leg pattern whose trade nets `-1e-13` (entry `1e13`, exit
`1e13 - 1`, no costs): a loss whose magnitude is below the `1e-12`
profit-factor guard. -/
def tinyLossPattern : WavePattern :=
  { kind := "impulse_1_5",
    legs := [⟨0, 1, 10000000000000, 10000000000000⟩, ⟨1, 2, 1, 1⟩,
             ⟨2, 3, 1, 1⟩, ⟨3, 4, 1, 1⟩, ⟨4, 5, 1, 9999999999999⟩],
    meta := {} }

/-- A concrete 5-leg upward pattern with magnitudes `[10, 3, 12, 4, 9]`
spanning indices 0 to 100. -/
def scenarioPattern : WavePattern :=
  { kind := "impulse_1_5",
    legs := [⟨0, 10, 0, 10⟩, ⟨10, 20, 10, 7⟩, ⟨20, 30, 7, 19⟩,
             ⟨30, 40, 19, 15⟩, ⟨40, 100, 15, 24⟩],
    meta := {} }

/-! ## Helper lemmas -/

/-- A leg's direction is `1`, `-1` or `0`. -/
theorem WaveLeg.direction_trichotomy (l : WaveLeg) :
    l.direction = 1 ∨ l.direction = -1 ∨ l.direction = 0 := by
  unfold WaveLeg.direction
  split_ifs <;> simp

/-! ## Claims -/

/-- C3 (counterexample): for `n = 6`, `max_gap = 1`, layer 0 of the
candidate generator contains the starting index `1`, which lies outside
the claimed range `[0, n - 5) = [0, 1)`. -/
theorem C3_layer0_counterexample :
    1 ∈ (_layers 6 1).getD 0 [] ∧ 1 ∉ List.range (6 - 5) := by
  decide

/-- C3 (amended): the candidate generator builds exactly 5 layers;
layer 0 ranges exactly over the starting indices `[0, n - 4)` (that is,
`i0` from `0` to `n - 5` inclusive), and each of layers 1–4 ranges
exactly over the gaps `1` to `max_gap + 1` inclusive. -/
theorem C3_layers_ranges (n g : Nat) :
    (_layers n g).length = 5 ∧
    (∀ i : Nat, i ∈ (_layers n g).getD 0 [] ↔ i + 4 < n) ∧
    (∀ k : Nat, 1 ≤ k → k ≤ 4 →
      ∀ δ : Nat, δ ∈ (_layers n g).getD k [] ↔ 1 ≤ δ ∧ δ ≤ g + 1) := by
  refine ⟨by simp [_layers], ?_, ?_⟩
  · intro i
    simp only [_layers, List.getD_cons_zero, List.mem_range]
    omega
  · intro k hk1 hk4 δ
    have hrep : (_layers n g).getD k [] = List.range' 1 (g + 1) := by
      interval_cases k <;> rfl
    rw [hrep, List.mem_range'_1]
    omega

/-- C3 (witness for the amended theorem): concrete instance at `n = 6`,
`max_gap = 1`, layer `2`, gap `2`. -/
theorem C3_layers_ranges_witness :
    (1 ≤ 2 ∧ 2 ≤ 4) ∧
      (2 ∈ (_layers 6 1).getD 2 [] ↔ 1 ≤ 2 ∧ 2 ≤ 1 + 1) :=
  ⟨by decide, (C3_layers_ranges 6 1).2.2 2 (by decide) (by decide) 2⟩

/-- C4: `is_valid_impulse_from_monowaves` accepts exactly the inputs of
`validImpulseSpec`; in particular the wave-4 overlap flag (which the
right-hand side does not mention) never causes rejection. -/
theorem C4_valid_impulse_iff (mws : List MonoWave) :
    (is_valid_impulse_from_monowaves mws).1 = true ↔ validImpulseSpec mws := by
  rcases mws with _ | ⟨m0, _ | ⟨m1, _ | ⟨m2, _ | ⟨m3, _ | ⟨m4, _ | ⟨m5, rest⟩⟩⟩⟩⟩⟩
  · simp [is_valid_impulse_from_monowaves, validImpulseSpec]
  · simp [is_valid_impulse_from_monowaves, validImpulseSpec]
  · simp [is_valid_impulse_from_monowaves, validImpulseSpec]
  · simp [is_valid_impulse_from_monowaves, validImpulseSpec]
  · simp [is_valid_impulse_from_monowaves, validImpulseSpec]
  · have htri := WaveLeg.direction_trichotomy m0
    simp only [is_valid_impulse_from_monowaves, validImpulseSpec,
      List.getD_cons_zero, List.getD_cons_succ, List.map_cons, List.map_nil,
      List.mem_cons, List.not_mem_nil, or_false]
    split_ifs with h0 hseq hr1 hr2 hw hov
    · refine iff_of_false (by simp) ?_
      rintro ⟨-, hnz, -, -, -, -⟩
      rcases h0 with h | h | h | h | h
      · exact hnz m0 (Or.inl rfl) h.symm
      · exact hnz m1 (Or.inr (Or.inl rfl)) h.symm
      · exact hnz m2 (Or.inr (Or.inr (Or.inl rfl))) h.symm
      · exact hnz m3 (Or.inr (Or.inr (Or.inr (Or.inl rfl)))) h.symm
      · exact hnz m4 (Or.inr (Or.inr (Or.inr (Or.inr rfl)))) h.symm
    · refine iff_of_false (by simp) ?_
      rintro ⟨-, -, hmap, -, -, -⟩
      exact hseq hmap
    · refine iff_of_false (by simp) ?_
      rintro ⟨-, -, -, hlt, -, -⟩
      exact absurd (hlt hr1.1) (not_lt.mpr hr1.2)
    · refine iff_of_false (by simp) ?_
      rintro ⟨-, hnz, -, -, hgt, -⟩
      have hne : m0.direction ≠ 0 := hnz m0 (Or.inl rfl)
      have hm1 : m0.direction = -1 := by
        rcases htri with h | h | h
        · exact absurd h hr2.1
        · exact h
        · exact absurd h hne
      exact absurd (hgt hm1) (not_lt.mpr hr2.2)
    · refine iff_of_false (by simp) ?_
      rintro ⟨-, -, -, -, -, hmin⟩
      exact absurd hmin (not_lt.mpr hw)
    · refine iff_of_true rfl ?_
      push_neg at h0 hr1 hr2
      obtain ⟨hd0, hd1, hd2, hd3, hd4⟩ := h0
      rw [not_ne_iff] at hseq
      refine ⟨rfl, ?_, hseq, hr1, ?_, not_le.mp hw⟩
      · intro m hm
        rcases hm with rfl | rfl | rfl | rfl | rfl
        · exact fun h => hd0 h.symm
        · exact fun h => hd1 h.symm
        · exact fun h => hd2 h.symm
        · exact fun h => hd3 h.symm
        · exact fun h => hd4 h.symm
      · intro hs
        exact hr2 (by rw [hs]; decide)
    · refine iff_of_true rfl ?_
      push_neg at h0 hr1 hr2
      obtain ⟨hd0, hd1, hd2, hd3, hd4⟩ := h0
      rw [not_ne_iff] at hseq
      refine ⟨rfl, ?_, hseq, hr1, ?_, not_le.mp hw⟩
      · intro m hm
        rcases hm with rfl | rfl | rfl | rfl | rfl
        · exact fun h => hd0 h.symm
        · exact fun h => hd1 h.symm
        · exact fun h => hd2 h.symm
        · exact fun h => hd3 h.symm
        · exact fun h => hd4 h.symm
      · intro hs
        exact hr2 (by rw [hs]; decide)
  · simp only [is_valid_impulse_from_monowaves, validImpulseSpec]
    refine iff_of_false (by simp) ?_
    rintro ⟨hlen, -⟩
    simp at hlen

/-- C9: `confidence_from_score` equals the logistic function applied to
`score - 2.5` and is strictly increasing in the score. -/
theorem C9_confidence_strict_mono :
    (∀ s : Real, confidence_from_score s = logistic (s - 5 / 2)) ∧
    ∀ a b : Real, a < b → confidence_from_score a < confidence_from_score b := by
  constructor
  · intro s
    rfl
  · intro a b hab
    unfold confidence_from_score
    have h1 : Real.exp (-(b - 5 / 2)) < Real.exp (-(a - 5 / 2)) :=
      Real.exp_lt_exp.mpr (by linarith)
    have ha : (0 : Real) < 1 + Real.exp (-(a - 5 / 2)) := by positivity
    have hb : (0 : Real) < 1 + Real.exp (-(b - 5 / 2)) := by positivity
    rw [div_lt_div_iff₀ ha hb]
    nlinarith [h1]

/-- C9 (witness): a concrete strict increase, from score 0 to score 1. -/
theorem C9_confidence_strict_mono_witness :
    (0 : Real) < 1 ∧ confidence_from_score 0 < confidence_from_score 1 :=
  ⟨by norm_num, C9_confidence_strict_mono.2 0 1 (by norm_num)⟩

/-- The inner expansion loop keeps the `generated` counter within the
budget as long as it enters below the budget. -/
theorem expandPrefix_gen_le {α : Type} (f : List α → Rat) (maxC : Nat)
    (pfx : List α) : ∀ (layer : List α) (acc : List (List α × Rat))
    (gen : Nat), gen < maxC → (expandPrefix f maxC pfx layer acc gen).2 ≤ maxC := by
  intro layer
  induction layer with
  | nil => intro acc gen h; simpa [expandPrefix] using h.le
  | cons item rest ih =>
    intro acc gen h
    simp only [expandPrefix]
    split_ifs with hle
    · omega
    · exact ih _ _ (by omega)

/-- The per-layer expansion loop keeps the `generated` counter within
the budget as long as it enters below the budget. -/
theorem expandLayer_gen_le {α : Type} (f : List α → Rat) (maxC : Nat)
    (layer : List α) : ∀ (beam acc : List (List α × Rat)) (gen : Nat),
    gen < maxC → (expandLayer f maxC layer beam acc gen).2 ≤ maxC := by
  intro beam
  induction beam with
  | nil => intro acc gen h; simpa [expandLayer] using h.le
  | cons hd rest ih =>
    intro acc gen h
    obtain ⟨pfx, s⟩ := hd
    simp only [expandLayer]
    split_ifs with hle
    · exact expandPrefix_gen_le f maxC pfx layer acc gen h
    · exact ih _ _ (by
        have := expandPrefix_gen_le f maxC pfx layer acc gen h
        omega)

/-- The layer loop keeps the `generated` counter within the budget as
long as it enters below the budget. -/
theorem beamLoop_gen_le {α : Type} (f : List α → Rat) (cfg : BeamConfig) :
    ∀ (layers : List (List α)) (beam : List (List α × Rat)) (gen : Nat),
    gen < cfg.max_candidates →
    (beamLoop f cfg layers beam gen).2 ≤ cfg.max_candidates := by
  intro layers
  induction layers with
  | nil => intro beam gen h; simpa [beamLoop] using h.le
  | cons layer rest ih =>
    intro beam gen h
    simp only [beamLoop]
    split_ifs with hle
    · exact expandLayer_gen_le f cfg.max_candidates layer beam [] gen h
    · exact ih _ _ (by
        have := expandLayer_gen_le f cfg.max_candidates layer beam [] gen h
        omega)

/-- C1 (counterexample): with `max_candidates = 0`, a beam search over
one single-item layer still performs one scoring evaluation, so the
number of generated candidates exceeds `max_candidates`. -/
theorem C1_budget_counterexample :
    ¬ ((beam_search [[(0 : Nat)]] (fun _ => (0 : Rat))
        { beam_width := 256, max_candidates := 0, max_patterns := 50 }).2 ≤ 0) := by
  decide

/-- C1 (amended): whenever `max_candidates ≥ 1`, a beam search run
performs at most `max_candidates` partial-prefix scoring evaluations
in total across all layers (the counter is checked after every single
expansion, so the budget is global, stopping mid-layer). -/
theorem C1_budget_global {α : Type} (layers : List (List α))
    (score_fn : List α → Rat) (cfg : BeamConfig)
    (h : 1 ≤ cfg.max_candidates) :
    (beam_search layers score_fn cfg).2 ≤ cfg.max_candidates := by
  unfold beam_search
  exact beamLoop_gen_le score_fn cfg layers [([], 0)] 0 (by omega)

/-- C1 (witness): the default configuration on a small concrete search
space stays within its budget of 5000. -/
theorem C1_budget_global_witness :
    1 ≤ (5000 : Nat) ∧
      (beam_search [[0, 1], [0]] (fun _ => (0 : Rat)) {}).2 ≤ 5000 :=
  ⟨by norm_num,
    C1_budget_global [[0, 1], [0]] (fun _ => (0 : Rat)) {} (by norm_num)⟩

/-- The span overlap ratio is symmetric. -/
theorem overlap_ratio_comm (a b : Int × Int) :
    overlap_ratio a b = overlap_ratio b a := by
  unfold overlap_ratio
  rw [min_comm a.2 b.2, max_comm a.1 b.1, max_comm a.2 b.2, min_comm a.1 b.1]

/-- The greedy NMS loop preserves pairwise sub-threshold overlap of the
kept list: every accepted item was checked against all previously kept
ones. -/
theorem nmsLoop_pairwise {α : Type} (span_fn : α → Int × Int) (th : Rat)
    (mk : Nat) : ∀ (l kept : List α),
    kept.Pairwise (fun a b => overlap_ratio (span_fn a) (span_fn b) < th) →
    (nmsLoop span_fn th mk l kept).Pairwise
      (fun a b => overlap_ratio (span_fn a) (span_fn b) < th) := by
  intro l
  induction l with
  | nil => intro kept h; simpa [nmsLoop] using h
  | cons it rest ih =>
    intro kept h
    have hstep : kept.all (fun kt => overlap_ratio (span_fn it) (span_fn kt) < th) = true →
        (kept ++ [it]).Pairwise
          (fun a b => overlap_ratio (span_fn a) (span_fn b) < th) := by
      intro hok
      refine List.pairwise_append.mpr ⟨h, List.pairwise_singleton _ _, ?_⟩
      intro a ha b hb
      rw [List.mem_singleton] at hb
      subst hb
      have := List.all_eq_true.mp hok a ha
      rw [overlap_ratio_comm]
      exact of_decide_eq_true this
    simp only [nmsLoop]
    split_ifs with hok hlen
    · exact hstep hok
    · exact ih _ (hstep hok)
    · exact ih _ h

/-- The greedy NMS loop never grows the kept list beyond the keep limit
when it starts strictly below it. -/
theorem nmsLoop_length {α : Type} (span_fn : α → Int × Int) (th : Rat)
    (mk : Nat) : ∀ (l kept : List α), kept.length < mk →
    (nmsLoop span_fn th mk l kept).length ≤ mk := by
  intro l
  induction l with
  | nil => intro kept h; simpa [nmsLoop] using h.le
  | cons it rest ih =>
    intro kept h
    simp only [nmsLoop]
    split_ifs with hok hlen
    · simpa using h
    · exact ih _ (by simp at hlen ⊢; omega)
    · exact ih _ h

/-- C5 (counterexample): with `max_keep = 0` and a non-empty input,
`nms_by_span` still returns one item (the first acceptance happens
before the keep limit is checked), so the returned list exceeds
`max_keep`. -/
theorem C5_nms_counterexample :
    ¬ ((nms_by_span [((0 : Int), (1 : Int))] id (fun _ => 0) (7 / 10) 0).length ≤ 0) := by
  decide

/-- C5 (amended): whenever `max_keep ≥ 1`, any two distinct items kept
by `nms_by_span` have span overlap ratio strictly below the overlap
threshold, and at most `max_keep` items are returned. -/
theorem C5_nms_pairwise_and_bounded {α : Type} (items : List α)
    (span_fn : α → Int × Int) (score_fn : α → Rat) (overlap_thresh : Rat)
    (max_keep : Nat) (h : 1 ≤ max_keep) :
    (nms_by_span items span_fn score_fn overlap_thresh max_keep).Pairwise
      (fun a b => overlap_ratio (span_fn a) (span_fn b) < overlap_thresh) ∧
    (nms_by_span items span_fn score_fn overlap_thresh max_keep).length ≤ max_keep := by
  unfold nms_by_span
  exact ⟨nmsLoop_pairwise span_fn overlap_thresh max_keep _ [] List.Pairwise.nil,
    nmsLoop_length span_fn overlap_thresh max_keep _ [] (by simpa using h)⟩

/-- C5 (witness): concrete instance on two overlapping spans with keep
limit 2. -/
theorem C5_nms_pairwise_and_bounded_witness :
    1 ≤ 2 ∧
      ((nms_by_span [((0 : Int), (3 : Int)), ((1 : Int), (4 : Int))] id
          (fun _ => 0) (7 / 10) 2).Pairwise
        (fun a b => overlap_ratio (id a) (id b) < 7 / 10) ∧
      (nms_by_span [((0 : Int), (3 : Int)), ((1 : Int), (4 : Int))] id
          (fun _ => 0) (7 / 10) 2).length ≤ 2) :=
  ⟨by norm_num,
    C5_nms_pairwise_and_bounded [((0 : Int), (3 : Int)), ((1 : Int), (4 : Int))]
      id (fun _ => 0) (7 / 10) 2 (by norm_num)⟩

/-- The last element of a list, through `getD` at `length - 1`. -/
theorem getD_of_getLast? {l : List Rat} {x : Rat} (h : l.getLast? = some x) :
    l.getD (l.length - 1) 0 = x := by
  rw [List.getLast?_eq_getElem?] at h
  rw [List.getD_eq_getD_get?, List.get?_eq_getElem?, h]
  rfl

/-- The initial backtest state satisfies the loop invariant. -/
theorem BTInv_init (init risk : Rat) :
    BTInv init risk
      { equity := init, curve := [init], trades := [], wins := 0,
        rets := [], gross_wins := 0, gross_losses := 0 } := by
  refine ⟨rfl, rfl, rfl, rfl, rfl, by simp, ?_⟩
  intro k hk
  simp at hk

/-- One backtest step preserves the loop invariant. -/
theorem btStep_preserves_inv (risk minc : Rat) (bars : Option (List Rat))
    (mode : String) (fb sb init : Rat) (st : BTState) (ip : Nat × WavePattern)
    (h : BTInv init risk st) :
    BTInv init risk (btStep risk minc bars mode fb sb st ip) := by
  obtain ⟨hlen, hhead, hlast, hrets, hgw, hgl, hidx⟩ := h
  by_cases hskip : btSkips minc bars mode ip.2 = true
  · simpa [btStep, hskip] using ⟨hlen, hhead, hlast, hrets, hgw, hgl, hidx⟩
  · have hne : st.curve ≠ [] := by
      intro hc
      rw [hc] at hlen
      simp at hlen
    simp only [btStep, hskip, if_false, Bool.false_eq_true]
    set t := btTrade risk bars mode fb sb st.equity ip with hT
    have hpnl : t.pnl = st.equity * risk * t.ret := by
      simp [hT, btTrade, mul_assoc]
    have hafter : t.equity_after = st.equity + t.pnl := by
      simp [hT, btTrade]
    refine ⟨by simp [hlen], ?_, ?_, ?_, ?_, ?_, ?_⟩
    · rw [List.head?_append_of_ne_nil _ hne]
      exact hhead
    · exact List.getLast?_concat _
    · simp [hrets]
    · by_cases hpos : (0:Rat) < t.ret <;>
        simp [hpos, hgw, List.filter_append, List.sum_append]
    · by_cases hpos : (0:Rat) < t.ret <;>
        simp [hpos, hgl, not_lt.mp, List.filter_append, List.sum_append, not_lt] <;>
        ring
    · intro k hk
      simp only [List.length_append, List.length_cons, List.length_nil] at hk ⊢
      rcases Nat.lt_succ_iff_lt_or_eq.mp (by simpa using hk) with hk' | hk'
      · have hck : k < st.curve.length := by omega
        have hck1 : k + 1 < st.curve.length := by omega
        rw [List.getD_append _ _ _ _ hk', List.getD_append _ _ _ _ hck,
          List.getD_append _ _ _ _ hck1]
        exact hidx k hk'
      · subst hk'
        have hck : st.trades.length < st.curve.length := by omega
        rw [List.getD_append _ _ _ _ hck,
          List.getD_append_right st.trades _ default st.trades.length le_rfl,
          List.getD_append_right st.curve _ 0 (st.trades.length + 1) (by omega)]
        have hcur : st.curve.getD st.trades.length 0 = st.equity := by
          have := getD_of_getLast? hlast
          rwa [hlen, Nat.add_sub_cancel] at this
        rw [hcur, hlen]
        simp [Nat.sub_self, hafter, hpnl]

/-- Folding the backtest step over any pattern list preserves the loop
invariant. -/
theorem btFold_inv (risk minc : Rat) (bars : Option (List Rat))
    (mode : String) (fb sb init : Rat) :
    ∀ (l : List (Nat × WavePattern)) (st : BTState), BTInv init risk st →
      BTInv init risk (l.foldl (btStep risk minc bars mode fb sb) st) := by
  intro l
  induction l with
  | nil => intro st h; simpa using h
  | cons hd tl ih =>
    intro st h
    simp only [List.foldl_cons]
    exact ih _ (btStep_preserves_inv risk minc bars mode fb sb init st hd h)

/-- The recorded trades' pattern indices are exactly the indices of the
non-skipped patterns, in input order. -/
theorem btFold_trades_map (risk minc : Rat) (bars : Option (List Rat))
    (mode : String) (fb sb : Rat) :
    ∀ (l : List (Nat × WavePattern)) (st : BTState),
      ((l.foldl (btStep risk minc bars mode fb sb) st).trades).map Trade.pattern_idx =
        st.trades.map Trade.pattern_idx ++
          (l.filter (fun ip => ! btSkips minc bars mode ip.2)).map Prod.fst := by
  intro l
  induction l with
  | nil => intro st; simp
  | cons hd tl ih =>
    intro st
    simp only [List.foldl_cons, List.filter_cons]
    by_cases hskip : btSkips minc bars mode hd.2 = true
    · rw [show btStep risk minc bars mode fb sb st hd = st from by simp [btStep, hskip]]
      simp only [hskip, Bool.not_true, if_false, Bool.false_eq_true]
      exact ih st
    · have ht : (btStep risk minc bars mode fb sb st hd).trades =
          st.trades ++ [btTrade risk bars mode fb sb st.equity hd] := by
        simp [btStep, hskip]
      have hti : (btTrade risk bars mode fb sb st.equity hd).pattern_idx = hd.1 := by
        simp [btTrade]
      rw [ih (btStep risk minc bars mode fb sb st hd), ht]
      simp [hskip, hti]

/-- C6 (counterexample): the code skips on `len(legs) < 5`, not
`len(legs) != 5`: a 6-leg pattern with positive prices produces a
trade, where the claim says it must be skipped. -/
theorem C6_six_leg_counterexample :
    sixLegPattern.legs.length = 6 ∧
      (backtest_patterns [sixLegPattern]).1.length = 1 := by
  decide

/-- C6 (amended): a pattern produces no trade exactly when its
confidence is below `min_confidence`, its leg count is *fewer than 5*,
or its resolved entry or exit price is non-positive; every other
pattern produces exactly one trade, in the given input order (the trade
list's pattern indices are the filtered input positions), and only
trades extend the equity curve. -/
theorem C6_trade_iff_not_skipped (patterns : List WavePattern)
    (initial_cash risk_fraction min_confidence : Rat)
    (bars : Option (List Rat)) (entry_mode : String)
    (fee_bps slippage_bps : Rat) :
    (let out := backtest_patterns patterns initial_cash risk_fraction
      min_confidence bars entry_mode fee_bps slippage_bps
     out.1.map Trade.pattern_idx =
        (patterns.enum.filter
          (fun ip => ! btSkips min_confidence bars entry_mode ip.2)).map Prod.fst ∧
      out.2.equity_curve.length = out.1.length + 1) := by
  constructor
  · simpa [backtest_patterns] using
      btFold_trades_map risk_fraction min_confidence bars entry_mode
        (fee_bps / 10000) (slippage_bps / 10000) patterns.enum
        { equity := initial_cash, curve := [initial_cash], trades := [],
          wins := 0, rets := [], gross_wins := 0, gross_losses := 0 }
  · have hinv := btFold_inv risk_fraction min_confidence bars entry_mode
      (fee_bps / 10000) (slippage_bps / 10000) initial_cash patterns.enum
      _ (BTInv_init initial_cash risk_fraction)
    simpa [backtest_patterns] using hinv.1

/-- C7 (counterexample): with one `+0.10` win and one `-1e-13` loss the
loss sum is nonzero, so the claim says the profit factor is the ratio
`(1/10) / (1/10^13)`, but the code's `> 1e-12` guard returns `+inf`. -/
theorem C7_profit_factor_counterexample :
    (backtest_patterns [winPattern, tinyLossPattern]).2.profit_factor = PFloat.inf ∧
    (((backtest_patterns [winPattern, tinyLossPattern]).1.map Trade.ret).filter
        (fun x => 0 < x)).sum = 1 / 10 ∧
    (-(((backtest_patterns [winPattern, tinyLossPattern]).1.map Trade.ret).filter
        (fun x => x ≤ 0)).sum) = 1 / 10 ^ 13 ∧
    PFloat.inf ≠ PFloat.val ((1 / 10) / (1 / 10 ^ 13)) := by
  refine ⟨?_, ?_, ?_, by decide⟩ <;>
    norm_num [backtest_patterns, btStep, btTrade, btSkips, resolvedPrices,
      List.enum, List.enumFrom, winPattern, tinyLossPattern]

/-- C7 (amended): the profit factor is the sum of positive per-trade
net returns divided by the absolute sum of non-positive ones *when the
latter exceeds `1e-12`*; otherwise it is `+inf` when the win sum is
positive and `0` when it is not (in particular `0` when there are
neither wins nor losses).  The division case has a denominator above
`1e-12 > 0`, so no division by zero arises. -/
theorem C7_profit_factor_guarded (patterns : List WavePattern)
    (initial_cash risk_fraction min_confidence : Rat)
    (bars : Option (List Rat)) (entry_mode : String)
    (fee_bps slippage_bps : Rat) :
    (let out := backtest_patterns patterns initial_cash risk_fraction
      min_confidence bars entry_mode fee_bps slippage_bps
     let gw := ((out.1.map Trade.ret).filter (fun x => 0 < x)).sum
     let gl := -(((out.1.map Trade.ret).filter (fun x => x ≤ 0)).sum)
     out.2.profit_factor =
       if 1 / 10 ^ 12 < gl then PFloat.val (gw / gl)
       else if 0 < gw then PFloat.inf
       else PFloat.val 0) := by
  have hinv := btFold_inv risk_fraction min_confidence bars entry_mode
    (fee_bps / 10000) (slippage_bps / 10000) initial_cash patterns.enum
    _ (BTInv_init initial_cash risk_fraction)
  obtain ⟨-, -, -, -, hgw, hgl, -⟩ := hinv
  simp only [backtest_patterns, hgw, hgl]

/-- C10: the equity curve has one entry per recorded trade plus the
seeded initial cash; consecutive entries differ by the corresponding
trade's pnl, which equals the pre-trade equity times the risk fraction
times the trade's net return; each trade's `equity_after` is the entry
appended for it; and `final_equity` is the last curve entry. -/
theorem C10_equity_curve_recurrence (patterns : List WavePattern)
    (initial_cash risk_fraction min_confidence : Rat)
    (bars : Option (List Rat)) (entry_mode : String)
    (fee_bps slippage_bps : Rat) :
    (let out := backtest_patterns patterns initial_cash risk_fraction
      min_confidence bars entry_mode fee_bps slippage_bps
     out.2.equity_curve.length = out.1.length + 1 ∧
     out.2.equity_curve.head? = some initial_cash ∧
     out.2.equity_curve.getLast? = some out.2.final_equity ∧
     ∀ k, k < out.1.length →
       out.2.equity_curve.getD (k + 1) 0 =
         out.2.equity_curve.getD k 0 + (out.1.getD k default).pnl ∧
       (out.1.getD k default).pnl =
         out.2.equity_curve.getD k 0 * risk_fraction * (out.1.getD k default).ret ∧
       (out.1.getD k default).equity_after = out.2.equity_curve.getD (k + 1) 0) := by
  have hinv := btFold_inv risk_fraction min_confidence bars entry_mode
    (fee_bps / 10000) (slippage_bps / 10000) initial_cash patterns.enum
    _ (BTInv_init initial_cash risk_fraction)
  obtain ⟨h1, h2, h3, -, -, -, h7⟩ := hinv
  simp only [backtest_patterns]
  exact ⟨h1, h2, h3, h7⟩

/-- C10 (witness): on a concrete single-pattern run, the second curve
entry is the first plus the trade's pnl. -/
theorem C10_equity_curve_recurrence_witness :
    0 < (backtest_patterns [winPattern] 10000 1 0 none "pattern" 0 0).1.length ∧
    (backtest_patterns [winPattern] 10000 1 0 none "pattern" 0 0).2.equity_curve.getD 1 0 =
      (backtest_patterns [winPattern] 10000 1 0 none "pattern" 0 0).2.equity_curve.getD 0 0 +
        ((backtest_patterns [winPattern] 10000 1 0 none "pattern" 0 0).1.getD 0 default).pnl := by
  refine ⟨by decide, ?_⟩
  obtain ⟨-, -, -, h⟩ :=
    C10_equity_curve_recurrence [winPattern] 10000 1 0 none "pattern" 0 0
  exact (h 0 (by decide)).1

/-- C8: for any 5-leg pattern with leg magnitudes `[10, 3, 12, 4, 9]`,
upward first leg, no overlap flag, and a non-negative span, the score is
exactly `2 + 2 + 1.5 + 1.0 + min(span/500, 0.5)` (all three ratio
closeness terms are 1, the `w3 > min(w1, w5)` bonus fires, no penalty
fires), and the confidence computed from it is `logistic(score - 2.5)`. -/
theorem C8_score_scenario (p : WavePattern)
    (hm : p.legs.map WaveLeg.abs_move = [10, 3, 12, 4, 9])
    (hs : p.legs.headI.direction = 1)
    (hov : p.meta.w4_overlap = false)
    (hspan : p.start_idx ≤ p.end_idx) :
    score_impulse p =
      2 + 2 + 3 / 2 + 1 +
        min ((((p.end_idx - p.start_idx : Int) : Rat) : Real) / 500) (1 / 2) ∧
    confidence_from_score (score_impulse p) =
      logistic (score_impulse p - 5 / 2) := by
  obtain ⟨l1, l2, l3, l4, l5, hlegs⟩ :
      ∃ a b c d e, p.legs = [a, b, c, d, e] := by
    rcases hL : p.legs with _ | ⟨a, _ | ⟨b, _ | ⟨c, _ | ⟨d, _ | ⟨e, _ | ⟨f, r⟩⟩⟩⟩⟩⟩ <;>
      rw [hL] at hm <;>
      first
        | exact ⟨a, b, c, d, e, rfl⟩
        | simp at hm
  rw [hlegs] at hm
  simp only [List.map_cons, List.map_nil, List.cons.injEq, and_true] at hm
  obtain ⟨h1, h2, h3, h4, h5⟩ := hm
  have hsp : (0 : Real) ≤ (((p.end_idx - p.start_idx : Int) : Rat) : Real) / 500 := by
    have hz : (0 : Int) ≤ p.end_idx - p.start_idx := by omega
    have : (0 : Rat) ≤ ((p.end_idx - p.start_idx : Int) : Rat) := by exact_mod_cast hz
    positivity
  constructor
  · simp only [score_impulse, hlegs, h1, h2, h3, h4, h5, hov]
    rw [max_eq_left hsp]
    norm_num [_within, min_def, max_def]
  · rfl

/-- C8 (witness): the scenario theorem applied to `scenarioPattern`. -/
theorem C8_score_scenario_witness :
    scenarioPattern.legs.map WaveLeg.abs_move = [10, 3, 12, 4, 9] ∧
    score_impulse scenarioPattern =
      2 + 2 + 3 / 2 + 1 +
        min ((((scenarioPattern.end_idx - scenarioPattern.start_idx : Int) : Rat) : Real) / 500)
          (1 / 2) := by
  have hm : scenarioPattern.legs.map WaveLeg.abs_move = [10, 3, 12, 4, 9] := by
    norm_num [scenarioPattern, WaveLeg.abs_move]
  refine ⟨hm, (C8_score_scenario scenarioPattern hm ?_ rfl ?_).1⟩
  · decide
  · decide

/-- C2: stability-mode walk-forward on a concrete 400-bar series with 2
splits and 100 minimum bars per fold raises `TypeError` on its first
fold instead of recording the fold's backtest return: `_run_on_slice`
calls `AnalyzerConfig(options=options)` and `options` is not a field of
the dataclass, so no fold return is ever recorded. -/
theorem C2_walkforward_stability_raises :
    walk_forward_metrics_stability _run_on_slice 400 2 100 =
      Except.error (PyError.typeError
        "AnalyzerConfig.init got an unexpected keyword argument: options") := by
  rfl

end EW6
